import Mathlib

/-
Verification of the dispatch-and-worker conversation engine of a Telegram
music bot, via a shallow embedding of `core.py`, `worker.py` and `utils.py`.

Machine integers are modelled as `Nat`/`Int`; Python `None`-or-value fields
and possibly-missing object attributes are modelled as `Option`; code that
can raise is modelled with `Except PyErr`.  External collaborators (the
Telegram transport, the media resolver, the thumbnail HTTP check) are
modelled as oracle parameters.  Side effects are recorded as explicit
`Action` traces.
-/

namespace TMB

/-- Python exception kinds that the embedded code can raise. -/
inductive PyErr where
  | typeError
  | attributeError
  | keyError
deriving DecidableEq, Repr

/-! ## utils.py -/

/-- One pass of Python `str.replace` specialised to a single-character
pattern: every occurrence of `c` is replaced by `rep`, left to right, and
the replacement text is not rescanned by the same pass.  All four patterns
in `telegram_html_escape` are single characters, so this is an exact
embedding of the calls made by `utils.py`. -/
def replaceChar (c : Char) (rep : List Char) : List Char → List Char
  | [] => []
  | x :: xs =>
    if x = c then rep ++ replaceChar c rep xs
    else x :: replaceChar c rep xs

/-- Embedding of `utils.telegram_html_escape` (utils.py lines 3-7): the four
replacements are applied in source order, first `<`, then `>`, then `&`,
then the double quote. -/
def telegram_html_escape (s : String) : String :=
  String.mk
    (replaceChar '"' "&quot;".data
      (replaceChar '&' "&amp;".data
        (replaceChar '>' "&gt;".data
          (replaceChar '<' "&lt;".data s.data))))

/-- The per-character result of the whole replacement chain.  Because the
ampersand replacement runs after the angle-bracket replacements, the
ampersands introduced by those earlier passes get re-escaped. -/
def escapeCharSpec : Char → List Char
  | '<' => "&amp;lt;".data
  | '>' => "&amp;gt;".data
  | '&' => "&amp;".data
  | '"' => "&quot;".data
  | c => [c]

theorem replaceChar_append (c : Char) (rep : List Char) :
    ∀ xs ys, replaceChar c rep (xs ++ ys) =
      replaceChar c rep xs ++ replaceChar c rep ys := by
  intro xs ys
  induction xs with
  | nil => rfl
  | cons x xs ih =>
    simp only [List.cons_append, replaceChar]
    by_cases h : x = c <;> simp [h, ih]

theorem telegram_escape_chain_eq_bind :
    ∀ cs : List Char,
      replaceChar '"' "&quot;".data
        (replaceChar '&' "&amp;".data
          (replaceChar '>' "&gt;".data
            (replaceChar '<' "&lt;".data cs))) = cs.flatMap escapeCharSpec := by
  intro cs
  induction cs with
  | nil => rfl
  | cons x xs ih =>
    have step : ∀ c rep (t : Char) (ts : List Char),
        replaceChar c rep (t :: ts) =
          replaceChar c rep [t] ++ replaceChar c rep ts := by
      intro c rep t ts
      have := replaceChar_append c rep [t] ts
      simpa using this
    rw [step '<' _ x xs, replaceChar_append '>' _, replaceChar_append '&' _,
      replaceChar_append '"' _, ih]
    have hx : replaceChar '"' "&quot;".data
        (replaceChar '&' "&amp;".data
          (replaceChar '>' "&gt;".data
            (replaceChar '<' "&lt;".data [x]))) = escapeCharSpec x := by
      by_cases h1 : x = '<'
      · subst h1; decide
      · by_cases h2 : x = '>'
        · subst h2; decide
        · by_cases h3 : x = '&'
          · subst h3; decide
          · by_cases h4 : x = '"'
            · subst h4; decide
            · simp [replaceChar, h1, h2, h3, h4, escapeCharSpec]
    rw [hx]
    simp [escapeCharSpec]

/-- C10: `telegram_html_escape` applies its replacements in the order
`<`, `>`, `&`, `"`, so ampersands introduced by the angle-bracket
replacements are re-escaped by the ampersand replacement: every `<` in the
input becomes `&amp;lt;` (not `&lt;`), every `>` becomes `&amp;gt;`, and the
function is not idempotent. -/
theorem c10_escape_order_double_escapes :
    (∀ s : String, telegram_html_escape s = String.mk (s.data.flatMap escapeCharSpec)) ∧
    telegram_html_escape "<" = "&amp;lt;" ∧
    telegram_html_escape "<" ≠ "&lt;" ∧
    telegram_html_escape ">" = "&amp;gt;" ∧
    telegram_html_escape (telegram_html_escape "<") ≠ telegram_html_escape "<" := by
  refine ⟨?_, by decide, by decide, by decide, by decide⟩
  intro s
  unfold telegram_html_escape
  rw [telegram_escape_chain_eq_bind]

/-! ## The worker mailbox (worker.py)

A worker's queue receives Telegram updates, `CancelSignal`s and
`StopSignal`s.  An update is an object with optional `message` and
`callback_query` fields. -/

/-- A Telegram message: `text` may be absent, `message_id` identifies it. -/
structure Msg where
  text : Option String
  message_id : Nat
deriving DecidableEq, Repr

/-- A Telegram callback query (`data` payload and query id). -/
structure CbQuery where
  data : String
  id : Nat
deriving DecidableEq, Repr

/-- A Telegram update as the wait loops probe it: optional `message` and
optional `callback_query` fields. -/
structure Update where
  message : Option Msg
  callback_query : Option CbQuery
deriving DecidableEq, Repr

/-- An item of the worker's mailbox queue: an update, a `CancelSignal`, or a
`StopSignal(reason)` (worker.py lines 25-33). -/
inductive QItem where
  | upd (u : Update)
  | cancel
  | stop (reason : String)
deriving DecidableEq, Repr

/-- Keyboards attached to outgoing messages: none, the reply keyboard with
the Cancel button (`self.cancel_keyboard`), or `ReplyKeyboardRemove()`. -/
inductive Kbd where
  | plain
  | cancelReply
  | removed
deriving DecidableEq, Repr

/-- Side effects performed by the embedded code, recorded as a trace. -/
inductive Action where
  | sendMessage (chat : Nat) (textKey : String) (keyboard : Kbd)
  | deleteMessage (chat : Nat) (message_id : Nat)
  | closeSession
  | sysExit
deriving DecidableEq, Repr

/-- Embedding of `Worker._graceful_stop` together with
`Worker._notify_session_expiration` and `Worker._close_resources`
(worker.py lines 677-697): when the stop reason is `"timeout"` the user is
sent the `conversation_expired` notice with the custom keyboard removed;
in every case the database session is closed and the thread exits via
`sys.exit(0)`. -/
def graceful_stop (chat : Nat) (reason : String) : List Action :=
  (if reason = "timeout"
    then [Action.sendMessage chat "conversation_expired" Kbd.removed]
    else []) ++
  [Action.closeSession, Action.sysExit]

/-- Embedding of `Worker.__receive_next_update` (worker.py lines 152-165).
The mailbox is the list of items that will be delivered before the
conversation timeout elapses; an empty list means `queue.get` raises
`queue.Empty`, upon which the code synthesizes `StopSignal("timeout")` and
invokes `_graceful_stop` instead of propagating the exception.  A
`StopSignal` at the head likewise goes to `_graceful_stop`.  `none` in the
first component means the call never returns (the thread exited inside
`_graceful_stop`); otherwise the head item and the remaining queue are
returned. -/
def receive_next_update (chat : Nat) :
    List QItem → Option (QItem × List QItem) × List Action
  | [] => (none, graceful_stop chat "timeout")
  | QItem.stop r :: _ => (none, graceful_stop chat r)
  | x :: rest => (some (x, rest), [])

/-- Result of a wait loop: a returned value together with the rest of the
queue, the `CancelSignal` returned to the caller (cancellable waits only),
or termination of the worker inside `_graceful_stop` with the given
reason. -/
inductive WaitOut (α : Type) where
  | value (v : α) (rest : List QItem)
  | cancelled (rest : List QItem)
  | stopped (reason : String)
deriving DecidableEq, Repr

/-- Embedding of `Worker._wait_for_specific_message` (worker.py lines
167-194), consuming mailbox items until one of the strings in `items`
arrives as message text.  The `[]` and `QItem.stop` cases are the
graceful-stop path of `__receive_next_update`; a `CancelSignal` is returned
to the caller (as the pair `(CancelSignal, "1")` in the source) when the
wait is cancellable and is silently skipped otherwise. -/
def wait_for_specific_message (items : List String) (cancellable : Bool) :
    List QItem → WaitOut (String × Nat)
  | [] => .stopped "timeout"
  | QItem.stop r :: _ => .stopped r
  | QItem.cancel :: rest =>
    if cancellable then .cancelled rest
    else wait_for_specific_message items cancellable rest
  | QItem.upd u :: rest =>
    match u.message with
    | none => wait_for_specific_message items cancellable rest
    | some m =>
      match m.text with
      | none => wait_for_specific_message items cancellable rest
      | some t =>
        if t ∈ items then .value (t, m.message_id) rest
        else wait_for_specific_message items cancellable rest

/-- Embedding of `Worker.__wait_for_regex` (worker.py lines 196-224)
specialised to the pattern `(.*)` used by `_get_link`: with `re.DOTALL`
that pattern matches every message text and capture group 1 is the whole
text, so every text message is accepted.  The cancel branches are as in
`_wait_for_specific_message`. -/
def wait_for_regex_any (cancellable : Bool) :
    List QItem → WaitOut (String × Nat)
  | [] => .stopped "timeout"
  | QItem.stop r :: _ => .stopped r
  | QItem.cancel :: rest =>
    if cancellable then .cancelled rest
    else wait_for_regex_any cancellable rest
  | QItem.upd u :: rest =>
    match u.message with
    | none => wait_for_regex_any cancellable rest
    | some m =>
      match m.text with
      | none => wait_for_regex_any cancellable rest
      | some t => .value (t, m.message_id) rest

/-- Embedding of `Worker.__wait_for_inlinekeyboard_callback` (worker.py
lines 226-249), consuming mailbox items until an update carrying a
`callback_query` arrives (the source then answers the callback query and
returns it). -/
def wait_for_inlinekeyboard_callback (cancellable : Bool) :
    List QItem → WaitOut CbQuery
  | [] => .stopped "timeout"
  | QItem.stop r :: _ => .stopped r
  | QItem.cancel :: rest =>
    if cancellable then .cancelled rest
    else wait_for_inlinekeyboard_callback cancellable rest
  | QItem.upd u :: rest =>
    match u.callback_query with
    | none => wait_for_inlinekeyboard_callback cancellable rest
    | some cb => .value cb rest

/-- C7: when the mailbox receive times out the worker synthesizes
`StopSignal("timeout")` and funnels into `_graceful_stop` instead of
raising; the session-expired notice (with the custom keyboard removed) is
sent exactly when the stop reason is `"timeout"`; and for every stop reason
the storage session is closed and the worker task exits. -/
theorem c7_timeout_graceful_stop :
    (∀ chat : Nat, receive_next_update chat [] =
      (none, graceful_stop chat "timeout")) ∧
    (∀ (chat : Nat) (r : String) (rest : List QItem),
      receive_next_update chat (QItem.stop r :: rest) =
        (none, graceful_stop chat r)) ∧
    (∀ (chat : Nat) (reason : String),
      (Action.sendMessage chat "conversation_expired" Kbd.removed ∈
          graceful_stop chat reason ↔ reason = "timeout") ∧
      Action.closeSession ∈ graceful_stop chat reason ∧
      Action.sysExit ∈ graceful_stop chat reason ∧
      (graceful_stop chat reason).getLast? = some Action.sysExit) := by
  refine ⟨fun _ => rfl, fun _ _ _ => rfl, fun chat reason => ?_⟩
  by_cases h : reason = "timeout" <;>
    simp [graceful_stop, h]

/-- C8: a `CancelSignal` arriving at a non-cancellable wait point is
silently discarded — the wait continues exactly as if the signal had never
been enqueued — while at a cancellable wait point it is returned to the
caller. -/
theorem c8_cancel_signal_discarded_when_not_cancellable :
    ∀ (items : List String) (rest : List QItem),
      (wait_for_specific_message items false (QItem.cancel :: rest) =
        wait_for_specific_message items false rest) ∧
      (wait_for_regex_any false (QItem.cancel :: rest) =
        wait_for_regex_any false rest) ∧
      (wait_for_inlinekeyboard_callback false (QItem.cancel :: rest) =
        wait_for_inlinekeyboard_callback false rest) ∧
      (wait_for_specific_message items true (QItem.cancel :: rest) =
        WaitOut.cancelled rest) ∧
      (wait_for_regex_any true (QItem.cancel :: rest) =
        WaitOut.cancelled rest) ∧
      (wait_for_inlinekeyboard_callback true (QItem.cancel :: rest) =
        WaitOut.cancelled rest) := by
  intro items rest
  refine ⟨?_, ?_, ?_, ?_, ?_, ?_⟩ <;>
    simp [wait_for_specific_message, wait_for_regex_any,
      wait_for_inlinekeyboard_callback]

/-! ## The AwaitingLink retry loop (worker.py `_get_link` and `_soundcloud`) -/

/-- Longest run of non-whitespace characters at the head of the list, the
greedy `[^\s]+` part of the URL pattern (empty run means no match). -/
def takeNonspace : List Char → List Char
  | [] => []
  | c :: cs => if c.isWhitespace then [] else c :: takeNonspace cs

/-- Attempt to match the pattern `https?://[^\s]+` at the current position:
the literal scheme part first (greedy optional `s`), then at least one
non-whitespace character. -/
def matchUrlAt (cs : List Char) : Option (List Char) :=
  if "https://".data.isPrefixOf cs then
    let run := takeNonspace (cs.drop 8)
    if run.isEmpty then none else some ("https://".data ++ run)
  else if "http://".data.isPrefixOf cs then
    let run := takeNonspace (cs.drop 7)
    if run.isEmpty then none else some ("http://".data ++ run)
  else none

/-- Embedding of `re.search("(?P<url>https?://[^\s]+)", link)` (worker.py
line 319): the leftmost position where the URL pattern matches, with the
greedy non-whitespace run as the match. `none` models the `AttributeError`
path (`.group` on `None`). -/
def searchUrl : List Char → Option String
  | [] => none
  | c :: cs =>
    match matchUrlAt (c :: cs) with
    | some m => some (String.mk m)
    | none => searchUrl cs

/-- Python's substring test `needle in hay`. -/
def containsSub (needle : List Char) : List Char → Bool
  | [] => needle.isEmpty
  | c :: cs => needle.isPrefixOf (c :: cs) || containsSub needle cs

/-- Embedding of `Worker._handle_invalid_link` (worker.py lines 328-339):
from the second failure on, the previous prompt message is deleted; in any
case the `invalid_link` notice is sent together with the Cancel reply
keyboard (the re-prompt). -/
def handle_invalid_link (chat : Nat) (i : Nat) (msg_link_id : Nat) :
    List Action :=
  (if i ≥ 1 then [Action.deleteMessage chat msg_link_id] else []) ++
  [Action.sendMessage chat "invalid_link" Kbd.cancelReply]

/-- Embedding of `Worker._clean_up_messages` (worker.py lines 341-345). -/
def clean_up_messages (chat : Nat) (i : Nat) (msg_link_id : Nat) :
    List Action :=
  if i = 1 then [Action.deleteMessage chat msg_link_id] else []

/-- Outcome of `_get_link`: a soundcloud URL was returned, the user
cancelled (the code re-enters `__user_menu`, which loops forever), the
retry loop was exhausted (the function falls off its end and returns
`None`), or the worker stopped inside a wait. -/
inductive LinkOutcome where
  | success (url : String) (msg_id : Nat) (rest : List QItem)
  | toUserMenu (rest : List QItem)
  | exhausted (rest : List QItem)
  | stoppedWorker (reason : String)
deriving DecidableEq, Repr

/-- `self.MAX_RETRIES` (worker.py line 59). -/
def MAX_RETRIES : Nat := 3

/-- Embedding of the `while i < self.MAX_RETRIES` loop of
`Worker._get_link` (worker.py lines 311-326), with `remaining`
= `MAX_RETRIES - i`.  Each iteration waits (cancellably) for any text
message, extracts a URL with the pattern above, succeeds on a URL
containing `"soundcloud"`, and otherwise runs `_handle_invalid_link` and
retries.  When the loop exhausts, the final `invalid_link` notice is sent
with no keyboard argument and the function returns `None`. -/
def get_link_loop (chat msg_link_id : Nat) :
    Nat → Nat → List QItem → LinkOutcome × List Action
  | _, 0, q => (.exhausted q, [Action.sendMessage chat "invalid_link" Kbd.plain])
  | i, remaining + 1, q =>
    match wait_for_regex_any true q with
    | .stopped r => (.stoppedWorker r, [])
    | .cancelled rest => (.toUserMenu rest, clean_up_messages chat i msg_link_id)
    | .value (t, mid) rest =>
      match searchUrl t.data with
      | some url =>
        if containsSub "soundcloud".data url.data then
          (.success url mid rest, [])
        else
          let acts := handle_invalid_link chat i msg_link_id
          let r := get_link_loop chat msg_link_id (i + 1) remaining rest
          (r.1, acts ++ r.2)
      | none =>
        let acts := handle_invalid_link chat i msg_link_id
        let r := get_link_loop chat msg_link_id (i + 1) remaining rest
        (r.1, acts ++ r.2)

/-- Embedding of `Worker._get_link` (worker.py lines 311-327). -/
def get_link (chat msg_link_id : Nat) (q : List QItem) :
    LinkOutcome × List Action :=
  get_link_loop chat msg_link_id 0 MAX_RETRIES q

/-- Outcome of the `link, msg_id = self._get_link(msg_link)` line of
`Worker._soundcloud` (worker.py line 355) and what follows it. -/
inductive SoundcloudOutcome where
  | proceeds (url : String) (msg_id : Nat)
  | wentToUserMenu
  | workerStopped (reason : String)
  | raised (e : PyErr)
deriving DecidableEq, Repr

/-- Embedding of the link-receiving part of `Worker._soundcloud` (worker.py
lines 347-357): `_get_link` either returns a `(url, message_id)` pair or
falls off its end returning `None`; in the latter case the tuple unpacking
`link, msg_id = self._get_link(msg_link)` raises `TypeError` (None is not
iterable), so the guard `if link is None: return` on the next line is
unreachable. -/
def soundcloud_receive_link (chat msg_link_id : Nat) (q : List QItem) :
    SoundcloudOutcome × List Action :=
  let r := get_link chat msg_link_id q
  match r.1 with
  | .success url mid _ => (.proceeds url mid, r.2)
  | .toUserMenu _ => (.wentToUserMenu, r.2)
  | .stoppedWorker reason => (.workerStopped reason, r.2)
  | .exhausted _ => (.raised PyErr.typeError, r.2)

/-- Embedding of the top-level exception handler of `Worker.run`
(worker.py lines 117-138): an exception escaping the conversation sends the
`fatal_conversation_exception` notice and `run` returns, terminating the
worker thread (the conversation does not re-enter any menu). -/
def run_exception_handler (chat : Nat) (e : PyErr) : List Action :=
  [Action.sendMessage chat "fatal_conversation_exception" Kbd.plain]

/-- A text message carrying no URL, as a mailbox item. -/
def plainTextItem (t : String) (mid : Nat) : QItem :=
  QItem.upd { message := some { text := some t, message_id := mid },
              callback_query := none }

/-- C2 (evaluation at the failing input): four consecutive messages without
a soundcloud URL.  Only `MAX_RETRIES = 3` attempts are made (the fourth
message is left unconsumed), each failed attempt sends the `invalid_link`
notice with the re-prompt keyboard, and the final `invalid_link` notice is
sent after the loop — but then `_soundcloud`'s tuple unpacking of the
`None` returned by `_get_link` raises `TypeError`, so the conversation does
not return to the main menu: the worker's top-level handler sends the
fatal-error notice and the thread terminates. -/
theorem c2_exhausted_retries_raise_type_error :
    get_link 1 100 [plainTextItem "hello" 11, plainTextItem "hi" 12,
        plainTextItem "hey" 13, plainTextItem "yo" 14] =
      (LinkOutcome.exhausted [plainTextItem "yo" 14],
        [Action.sendMessage 1 "invalid_link" Kbd.cancelReply,
         Action.deleteMessage 1 100,
         Action.sendMessage 1 "invalid_link" Kbd.cancelReply,
         Action.deleteMessage 1 100,
         Action.sendMessage 1 "invalid_link" Kbd.cancelReply,
         Action.sendMessage 1 "invalid_link" Kbd.plain]) ∧
    (soundcloud_receive_link 1 100 [plainTextItem "hello" 11,
        plainTextItem "hi" 12, plainTextItem "hey" 13,
        plainTextItem "yo" 14]).1 = SoundcloudOutcome.raised PyErr.typeError ∧
    (soundcloud_receive_link 1 100 [plainTextItem "hello" 11,
        plainTextItem "hi" 12, plainTextItem "hey" 13,
        plainTextItem "yo" 14]).1 ≠ SoundcloudOutcome.wentToUserMenu ∧
    run_exception_handler 1 PyErr.typeError =
      [Action.sendMessage 1 "fatal_conversation_exception" Kbd.plain] := by
  refine ⟨by decide, by decide, by decide, rfl⟩

/-! ## Worker attributes and the Dispatcher (core.py `main`)

Python object attributes that may not have been assigned yet are modelled
as `Option` fields where `none` means "attribute absent"; reading an absent
attribute raises `AttributeError`. -/

/-- The localization object assigned by `Worker._create_localization`; it
is always a real `Localization` instance, never Python `None`.  Only the
`menu_cancel` string is relevant to the dispatcher. -/
structure LocObj where
  menu_cancel : String
deriving DecidableEq, Repr

/-- The attributes of a `Worker` instance relevant to the dispatcher.
`loc` is assigned only by `_create_localization`, which `run()` calls after
the database lookup; `invoice_payload` is assigned nowhere in `worker.py`
at all.  `none` means the attribute does not exist on the object. -/
structure WorkerObj where
  chat_id : Nat
  ITEMS_PER_PAGE : Nat
  MAX_RETRIES : Nat
  loc : Option LocObj
  invoice_payload : Option String
deriving DecidableEq, Repr

/-- Embedding of `Worker.__init__` (worker.py lines 39-63): it sets the
constants but assigns neither `self.loc` nor `self.invoice_payload`. -/
def Worker_init (chat_id : Nat) : WorkerObj :=
  { chat_id := chat_id
    ITEMS_PER_PAGE := 15
    MAX_RETRIES := 3
    loc := none
    invoice_payload := none }

/-- Embedding of `Worker._create_localization` (worker.py lines 663-675):
the only assignment to `self.loc`, always a `Localization` instance. -/
def create_localization (w : WorkerObj) (l : LocObj) : WorkerObj :=
  { w with loc := some l }

/-- Embedding of `Worker.is_ready` (worker.py lines 140-142): it evaluates
`self.loc is not None`.  If the `loc` attribute has not been assigned yet
the attribute read raises `AttributeError`; once assigned, `loc` is a
`Localization` instance (never `None`), so the comparison yields `True`. -/
def is_ready (w : WorkerObj) : Except PyErr Bool :=
  match w.loc with
  | none => .error .attributeError
  | some _ => .ok true

/-- How the dispatcher disposes of a private-chat text message. -/
inductive TextRoute where
  | startedNewWorker
  | noWorkerReply
  | notReadyReply
  | cancelSignalEnqueued
  | forwardedToWorker
deriving DecidableEq, Repr

/-- Embedding of the text-message branch of the dispatcher loop (core.py
lines 132-200) for a private chat: a `/start` text replaces the worker; with
no registered worker the `error_no_worker_for_chat` notice is sent; else
`receiving_worker.is_ready()` is called — an `AttributeError` raised there
propagates out of the dispatcher loop; a non-ready worker gets the
`error_worker_not_ready` notice; the localized cancel label becomes a
`CancelSignal`; anything else is forwarded into the worker's mailbox. -/
def dispatch_private_text (chat_workers : Nat → Option WorkerObj)
    (chat_id : Nat) (text : String) : Except PyErr TextRoute :=
  if text.startsWith "/start" then .ok .startedNewWorker
  else
    match chat_workers chat_id with
    | none => .ok .noWorkerReply
    | some w =>
      match is_ready w with
      | .error e => .error e
      | .ok ready =>
        if !ready then .ok .notReadyReply
        else
          match w.loc with
          | none => .error .attributeError
          | some l =>
            if text = l.menu_cancel then .ok .cancelSignalEnqueued
            else .ok .forwardedToWorker

/-- A `PreCheckoutQuery` update as probed by the dispatcher. -/
structure PreCheckoutQ where
  from_user_id : Nat
  invoice_payload : String
  id : Nat
deriving DecidableEq, Repr

/-- How the dispatcher disposes of a pre-checkout query. -/
inductive PcqRoute where
  | answeredExpired
  | forwardedToWorker
deriving DecidableEq, Repr

/-- Embedding of the pre-checkout branch of the dispatcher loop (core.py
lines 233-264): with no registered worker the query is answered negatively
with the `error_invoice_expired` message; otherwise the code evaluates
`update.pre_checkout_query.invoice_payload != receiving_worker.invoice_payload`
— reading `invoice_payload` on a worker that has no such attribute raises
`AttributeError`, which nothing in the dispatcher catches. -/
def handle_pre_checkout_query (chat_workers : Nat → Option WorkerObj)
    (pcq : PreCheckoutQ) : Except PyErr PcqRoute :=
  match chat_workers pcq.from_user_id with
  | none => .ok .answeredExpired
  | some w =>
    match w.invoice_payload with
    | none => .error .attributeError
    | some p =>
      if pcq.invoice_payload ≠ p then .ok .answeredExpired
      else .ok .forwardedToWorker

/-- C3 (evaluation at the failing input): when no worker exists the query
is indeed answered negatively, but as soon as a worker exists for the
sender — and every worker built by `Worker.__init__` lacks the
`invoice_payload` attribute, which nothing in `worker.py` ever assigns —
the dispatcher's payload comparison raises `AttributeError` instead of
answering or forwarding, for every payload value. -/
theorem c3_precheckout_attribute_error :
    (∀ (payload : String) (qid : Nat),
      handle_pre_checkout_query
        (fun c => if c = 1 then some (Worker_init 1) else none)
        { from_user_id := 1, invoice_payload := payload, id := qid } =
        .error PyErr.attributeError) ∧
    (∀ (pcq : PreCheckoutQ),
      handle_pre_checkout_query (fun _ => none) pcq = .ok .answeredExpired) ∧
    (Worker_init 1).invoice_payload = none := by
  refine ⟨fun _ _ => rfl, fun pcq => rfl, rfl⟩

/-- C9: before `run()` has reached `_create_localization`, the `loc`
attribute does not exist, so `Worker.is_ready` raises `AttributeError`
rather than returning `False` (indeed it can never return `False`), and
the dispatcher performs exactly this call for every non-start text message
routed to such a worker — so the `AttributeError` escapes into the
dispatcher loop instead of producing the not-ready reply. -/
theorem c9_is_ready_attribute_error (chat : Nat) (text : String)
    (hstart : ¬ text.startsWith "/start") :
    is_ready (Worker_init chat) = .error PyErr.attributeError ∧
    (∀ w : WorkerObj, is_ready w ≠ .ok false) ∧
    (∀ l : LocObj, is_ready (create_localization (Worker_init chat) l) = .ok true) ∧
    dispatch_private_text
      (fun c => if c = chat then some (Worker_init chat) else none)
      chat text = .error PyErr.attributeError := by
  refine ⟨rfl, ?_, fun l => rfl, ?_⟩
  · intro w h
    cases hw : w.loc <;> simp [is_ready, hw] at h
  · simp only [dispatch_private_text, hstart, if_false, if_pos rfl]
    simp [is_ready, Worker_init]

/-- Witness for C9 at a concrete chat and message text. -/
theorem c9_is_ready_attribute_error_witness :
    is_ready (Worker_init 5) = .error PyErr.attributeError ∧
    (∀ w : WorkerObj, is_ready w ≠ .ok false) ∧
    (∀ l : LocObj, is_ready (create_localization (Worker_init 5) l) = .ok true) ∧
    dispatch_private_text
      (fun c => if c = 5 then some (Worker_init 5) else none)
      5 "hello" = .error PyErr.attributeError :=
  c9_is_ready_attribute_error 5 "hello" (by decide)

/-! ## Thumbnail selection (worker.py `_get_best_thumbnail`, utils.py
`check_thumbnail`)

`utils.check_thumbnail` performs an external HTTP request (status 200,
JPEG content type, size under 200 KB) and returns the URL or `None`; it is
modelled as a boolean oracle on URLs. -/

/-- A thumbnail record: whether the `"resolution"` key is present, and the
`width` and `url` values. -/
structure ThumbInfo where
  has_resolution : Bool
  width : Int
  url : String
deriving DecidableEq, Repr

/-- The loop of `Worker._get_best_thumbnail` (worker.py lines 451-462),
with `best` the running `best_thumbnail`.  The Python condition is
`not best_thumbnail or thumbnail_info["width"] > best_thumbnail["width"]
and utils.check_thumbnail(best_thumbnail["url"])`, which by operator
precedence is `(not best) or (width_gt and check(best.url))` — note that
the validation is applied to the currently held best thumbnail, not to the
candidate. -/
def get_best_thumbnail_loop (check : String → Bool) :
    Option ThumbInfo → List ThumbInfo → Option ThumbInfo
  | best, [] => best
  | best, t :: ts =>
    if t.has_resolution then
      match best with
      | none => get_best_thumbnail_loop check (some t) ts
      | some b =>
        if b.width < t.width ∧ check b.url = true then
          get_best_thumbnail_loop check (some t) ts
        else get_best_thumbnail_loop check (some b) ts
    else get_best_thumbnail_loop check best ts

/-- Embedding of `Worker._get_best_thumbnail` (worker.py lines 451-462).
In `Worker.__show_one` (lines 496-511) the thumbnail-download button is
offered exactly when this returns a thumbnail, with no further
validation. -/
def get_best_thumbnail (check : String → Bool)
    (thumbnails : List ThumbInfo) : Option ThumbInfo :=
  get_best_thumbnail_loop check none thumbnails

/-- Modelled from the spec's words, for comparison with the code (this is
the one definition in this development translated from the specification
rather than from the source): among thumbnails carrying resolution
metadata choose the one with the greatest width, and offer it only if it
itself passes the external validation check; otherwise offer none. -/
def spec_best_thumbnail (check : String → Bool)
    (thumbnails : List ThumbInfo) : Option ThumbInfo :=
  match (thumbnails.filter (·.has_resolution)).argmax (·.width) with
  | none => none
  | some b => if check b.url then some b else none

/-- A single thumbnail with resolution metadata whose URL fails validation. -/
def thumbA : ThumbInfo := { has_resolution := true, width := 10, url := "u" }

/-- A narrow thumbnail with a failing URL, scanned first. -/
def thumbLow : ThumbInfo := { has_resolution := true, width := 5, url := "a" }

/-- A wider thumbnail with a passing URL, scanned second. -/
def thumbHigh : ThumbInfo := { has_resolution := true, width := 10, url := "b" }

/-- C4 (counterexample): the code does not implement the claimed policy.
With a single resolution-carrying thumbnail whose URL fails the external
validation, the claim demands that no thumbnail be offered, yet the code
selects it; and with a narrow failing thumbnail followed by a wider
passing one, the claim demands the wider passing one, yet the code keeps
the narrow one (the validation is applied to the current best rather than
to the candidate, and the final choice is never validated). -/
theorem c4_counterexample_unvalidated_choice :
    (get_best_thumbnail (fun _ => false) [thumbA] = some thumbA ∧
      spec_best_thumbnail (fun _ => false) [thumbA] = none) ∧
    (get_best_thumbnail (fun s => s == "b") [thumbLow, thumbHigh] =
        some thumbLow ∧
      spec_best_thumbnail (fun s => s == "b") [thumbLow, thumbHigh] =
        some thumbHigh) := by
  exact ⟨⟨by decide, by decide⟩, by decide, by decide⟩

theorem get_best_thumbnail_loop_ne_none (check : String → Bool) :
    ∀ (ts : List ThumbInfo) (b : ThumbInfo),
      get_best_thumbnail_loop check (some b) ts ≠ none := by
  intro ts
  induction ts with
  | nil => intro b h; simp [get_best_thumbnail_loop] at h
  | cons t ts ih =>
    intro b h
    by_cases hr : t.has_resolution <;>
      simp only [get_best_thumbnail_loop, hr, if_true, if_false] at h
    · split at h <;> exact ih _ h
    · exact ih _ h

theorem get_best_thumbnail_loop_mem (check : String → Bool) :
    ∀ (ts : List ThumbInfo) (b t : ThumbInfo),
      get_best_thumbnail_loop check (some b) ts = some t →
      t = b ∨ (t ∈ ts ∧ t.has_resolution = true) := by
  intro ts
  induction ts with
  | nil =>
    intro b t h
    simp only [get_best_thumbnail_loop] at h
    exact Or.inl (Option.some_injective _ h).symm
  | cons x ts ih =>
    intro b t h
    by_cases hr : x.has_resolution <;>
      simp only [get_best_thumbnail_loop, hr, if_true, if_false] at h
    · split at h
      · rcases ih _ _ h with h1 | h2
        · exact Or.inr ⟨by simp [h1], h1 ▸ hr⟩
        · exact Or.inr ⟨List.mem_cons_of_mem _ h2.1, h2.2⟩
      · rcases ih _ _ h with h1 | h2
        · exact Or.inl h1
        · exact Or.inr ⟨List.mem_cons_of_mem _ h2.1, h2.2⟩
    · rcases ih _ _ h with h1 | h2
      · exact Or.inl h1
      · exact Or.inr ⟨List.mem_cons_of_mem _ h2.1, h2.2⟩

theorem get_best_thumbnail_mem (check : String → Bool) :
    ∀ (ts : List ThumbInfo) (t : ThumbInfo),
      get_best_thumbnail check ts = some t →
      t ∈ ts ∧ t.has_resolution = true := by
  intro ts
  induction ts with
  | nil => intro t h; simp [get_best_thumbnail, get_best_thumbnail_loop] at h
  | cons x ts ih =>
    intro t h
    by_cases hr : x.has_resolution <;>
      simp only [get_best_thumbnail, get_best_thumbnail_loop, hr, if_true,
        if_false] at h
    · rcases get_best_thumbnail_loop_mem check ts x t h with h1 | h2
      · exact ⟨by simp [h1], h1 ▸ hr⟩
      · exact ⟨List.mem_cons_of_mem _ h2.1, h2.2⟩
    · rcases ih t h with ⟨h1, h2⟩
      exact ⟨List.mem_cons_of_mem _ h1, h2⟩

theorem get_best_thumbnail_isSome (check : String → Bool) :
    ∀ ts : List ThumbInfo,
      (get_best_thumbnail check ts).isSome = true ↔
        ∃ t ∈ ts, t.has_resolution = true := by
  intro ts
  constructor
  · intro h
    rcases Option.isSome_iff_exists.mp h with ⟨t, ht⟩
    rcases get_best_thumbnail_mem check ts t ht with ⟨h1, h2⟩
    exact ⟨t, h1, h2⟩
  · intro ⟨t, hmem, hres⟩
    induction ts with
    | nil => simp at hmem
    | cons x ts ih =>
      by_cases hr : x.has_resolution <;>
        simp only [get_best_thumbnail, get_best_thumbnail_loop, hr, if_true,
          if_false]
      · rcases hx : get_best_thumbnail_loop check (some x) ts with _ | t'
        · exact absurd hx (get_best_thumbnail_loop_ne_none check ts x)
        · simp
      · rcases List.mem_cons.mp hmem with h1 | h2
        · exact absurd (h1 ▸ hres) (by simpa using hr)
        · exact ih h2

theorem get_best_thumbnail_loop_false_check :
    ∀ (ts : List ThumbInfo) (b : ThumbInfo),
      get_best_thumbnail_loop (fun _ => false) (some b) ts = some b := by
  intro ts
  induction ts with
  | nil => intro b; rfl
  | cons x ts ih =>
    intro b
    by_cases hr : x.has_resolution <;>
      simp [get_best_thumbnail_loop, hr, ih]

theorem get_best_thumbnail_false_check :
    ∀ ts : List ThumbInfo,
      get_best_thumbnail (fun _ => false) ts =
        ts.find? (·.has_resolution) := by
  intro ts
  induction ts with
  | nil => rfl
  | cons x ts ih =>
    by_cases hr : x.has_resolution <;>
      simp only [get_best_thumbnail, get_best_thumbnail_loop, hr, if_true,
        if_false, List.find?]
    · simp [hr, get_best_thumbnail_loop_false_check]
    · simpa [hr] using ih

/-- C4 (amended): among the thumbnails the code offers, the choice is an
element of the input carrying resolution metadata, a thumbnail is offered
exactly when some input thumbnail carries resolution metadata — regardless
of validation — and when every URL fails the external validation the
offered thumbnail is simply the first one carrying resolution metadata
(not the widest, and itself unvalidated). -/
theorem c4_amended_first_with_resolution :
    ∀ (check : String → Bool) (ts : List ThumbInfo),
      ((get_best_thumbnail check ts).isSome = true ↔
        ∃ t ∈ ts, t.has_resolution = true) ∧
      (∀ t, get_best_thumbnail check ts = some t →
        t ∈ ts ∧ t.has_resolution = true) ∧
      get_best_thumbnail (fun _ => false) ts =
        ts.find? (·.has_resolution) :=
  fun check ts =>
    ⟨get_best_thumbnail_isSome check ts,
     fun t => get_best_thumbnail_mem check ts t,
     get_best_thumbnail_false_check ts⟩

/-- Witness for C4 (amended) at a concrete validation oracle and thumbnail
list. -/
theorem c4_amended_first_with_resolution_witness :
    thumbA ∈ [thumbA] ∧ thumbA.has_resolution = true :=
  (c4_amended_first_with_resolution (fun _ => false) [thumbA]).2.1 thumbA
    (by decide)

/-! ## Format buttons (worker.py `_create_format_buttons`) -/

/-- A media format record: average bitrate `abr`, container `ext`, and
download `url`. -/
structure FormatInfo where
  abr : Nat
  ext : String
  url : String
deriving DecidableEq, Repr

/-- Upper-casing of one character, as Python `str.upper()` acts on the
ASCII container names that appear in format records. -/
def pyUpperChar (c : Char) : Char :=
  if 'a' ≤ c ∧ c ≤ 'z' then Char.ofNat (c.toNat - 32) else c

/-- Python `str.upper()` on ASCII strings. -/
def pyUpper (s : String) : String := String.mk (s.data.map pyUpperChar)

/-- The dedup key `f"{abr} kbps {ext.upper()}"` (worker.py line 439). -/
def formatKey (f : FormatInfo) : String :=
  toString f.abr ++ " kbps " ++ pyUpper f.ext

/-- The admission test `format_info["abr"] > 64 and ".m3u8" not in
format_info["url"]` (worker.py line 438) — note the strict comparison:
a format at exactly 64 kbps is rejected. -/
def keepFormat (f : FormatInfo) : Bool :=
  decide (f.abr > 64) && !containsSub ".m3u8".data f.url.data

/-- An inline keyboard button (text and callback payload). -/
structure Btn where
  text : String
  callback_data : String
deriving DecidableEq, Repr

/-- The loop of `Worker._create_format_buttons` (worker.py lines 432-449):
admitted formats whose key has not been seen produce one button (callback
payload indexed by position in `format_urls`) and record their URL and
key. -/
def create_format_buttons_loop :
    List FormatInfo → List Btn → List String → List String →
      List Btn × List String
  | [], buttons, urls, _ => (buttons, urls)
  | f :: fs, buttons, urls, seen =>
    if keepFormat f then
      if formatKey f ∈ seen then
        create_format_buttons_loop fs buttons urls seen
      else
        create_format_buttons_loop fs
          (buttons ++
            [{ text := "Download " ++ formatKey f,
               callback_data := "download_format:" ++ toString urls.length }])
          (urls ++ [f.url]) (seen ++ [formatKey f])
    else create_format_buttons_loop fs buttons urls seen

/-- Embedding of `Worker._create_format_buttons` (worker.py lines
432-449). -/
def create_format_buttons (formats : List FormatInfo) :
    List Btn × List String :=
  create_format_buttons_loop formats [] [] []

/-- C5 (counterexample): a format at exactly 64 kbps with an ordinary URL
is neither below 64 kbps nor a streaming-manifest URL, so by the claim it
should yield a button, yet the code's strict `> 64` test produces none. -/
theorem c5_counterexample_64kbps_no_button :
    create_format_buttons [{ abr := 64, ext := "mp3", url := "http://x" }] =
      ([], []) ∧
    ¬ ((64 : Nat) < 64) ∧
    containsSub ".m3u8".data "http://x".data = false := by
  exact ⟨by decide, by decide, by decide⟩

theorem insert_sdiff_insert_card {α : Type} [DecidableEq α]
    (S T : Finset α) (k : α) (hk : k ∉ T) :
    (insert k S \ T).card = (S \ insert k T).card + 1 := by
  have h1 : insert k S \ T = insert k (S \ insert k T) := by
    ext x
    simp only [Finset.mem_sdiff, Finset.mem_insert]
    constructor
    · rintro ⟨hx | hx, hT⟩
      · exact Or.inl hx
      · by_cases hxk : x = k
        · exact Or.inl hxk
        · exact Or.inr ⟨hx, fun h => h.elim (fun h => hxk h) (fun h => hT h)⟩
    · rintro (hx | ⟨hxS, hxT⟩)
      · exact ⟨Or.inl hx, hx ▸ hk⟩
      · exact ⟨Or.inr hxS, fun h => hxT (Or.inr h)⟩
  rw [h1, Finset.card_insert_of_not_mem]
  simp [Finset.mem_sdiff]

theorem create_format_buttons_loop_length :
    ∀ (fs : List FormatInfo) (buttons : List Btn) (urls seen : List String),
      ((create_format_buttons_loop fs buttons urls seen).1).length =
        buttons.length +
          (((fs.filter keepFormat).map formatKey).toFinset \
            seen.toFinset).card := by
  intro fs
  induction fs with
  | nil => intro buttons urls seen; simp [create_format_buttons_loop]
  | cons f fs ih =>
    intro buttons urls seen
    by_cases hk : keepFormat f
    · by_cases hm : formatKey f ∈ seen
      · simp only [create_format_buttons_loop, hk, if_true, hm]
        rw [ih]
        have : (((f :: fs).filter keepFormat).map formatKey).toFinset =
            insert (formatKey f) ((fs.filter keepFormat).map formatKey).toFinset := by
          simp [List.filter_cons, hk]
        rw [this, Finset.insert_sdiff_of_mem _ (List.mem_toFinset.mpr hm)]
      · simp only [create_format_buttons_loop, hk, if_true, hm, if_false]
        rw [ih]
        have h2 : (((f :: fs).filter keepFormat).map formatKey).toFinset =
            insert (formatKey f) ((fs.filter keepFormat).map formatKey).toFinset := by
          simp [List.filter_cons, hk]
        have h3 : (seen ++ [formatKey f]).toFinset =
            insert (formatKey f) seen.toFinset := by
          ext x
          simp [or_comm]
        rw [h2, h3,
          insert_sdiff_insert_card _ _ _ (List.mem_toFinset.not.mpr hm)]
        simp only [List.length_append, List.length_cons, List.length_nil]
        omega
    · simp only [create_format_buttons_loop, hk, Bool.false_eq_true,
        if_false]
      rw [ih]
      simp [List.filter_cons, hk]

/-- C5 (amended): the button list contains exactly one button per distinct
`(bitrate, container)` key among the formats that pass the code's
admission test — bitrate strictly above 64 kbps and no `.m3u8` in the URL
(so a format at exactly 64 kbps is also excluded); in particular two
admitted formats with identical bitrate and container but different URLs
yield a single button, and formats at 64 kbps, below 64 kbps, or with
streaming-manifest URLs yield none. -/
theorem c5_amended_one_button_per_key :
    (∀ formats : List FormatInfo,
      (create_format_buttons formats).1.length =
        ((formats.filter keepFormat).map formatKey).toFinset.card) ∧
    (create_format_buttons
        [{ abr := 320, ext := "mp3", url := "u1" },
         { abr := 320, ext := "mp3", url := "u2" }] =
      ([{ text := "Download 320 kbps MP3",
          callback_data := "download_format:0" }], ["u1"])) ∧
    (create_format_buttons
        [{ abr := 64, ext := "mp3", url := "x" },
         { abr := 32, ext := "mp3", url := "y" },
         { abr := 128, ext := "mp3", url := "http://a.m3u8/q" }] =
      ([], [])) := by
  refine ⟨fun formats => ?_, by decide, by decide⟩
  rw [create_format_buttons, create_format_buttons_loop_length]
  simp

/-! ## The extraction pipeline (worker.py `_handle_extraction`,
`_handle_url`)

The media resolver `ydl.extract_info` is an oracle from URLs to info
records.  `_handle_url` (worker.py lines 425-430) has no `else` between
its two statements: after `if data.get("_type"): self._handle_playlist(...)`
control falls through to `self.__show_one(...)` whenever `_handle_playlist`
returns normally.  `_handle_playlist` can return normally: its final
`__show_many` call reaches `__show_one` on an item selection (worker.py
lines 577-580), and `__show_one`'s branch chain (lines 532-550) has no
`else`, so a callback payload matching none of its branches makes
`__show_one` return `None`, unwinding `__show_many` and `_handle_playlist`
back into `_handle_url` (`__send_file` with an out-of-range index, line
603, likewise returns normally).  Whether that happens depends on the
subsequent user-event stream, which we abstract as an oracle
`playlistReturns` saying, per target record, whether the
`_handle_playlist` call returns normally or instead never returns (menu
loop, `sys.exit`, or a propagating exception). -/

/-- The fields of a resolver info record probed by the pipeline: the
optional `"_type"` key and the optional `"url"` key (present on redirect
records). -/
structure Extracted where
  dtype : Option String
  url : Option String
deriving DecidableEq, Repr

/-- Python truthiness of `data.get("_type")`: the key is present and its
value is a non-empty string. -/
def pyTruthyStr : Option String → Bool
  | none => false
  | some s => !s.isEmpty

/-- A call into a conversation flow made by the pipeline, on the given
record. -/
inductive FlowCall where
  | playlistFlow (target : Extracted)
  | showOne (target : Extracted)
deriving DecidableEq, Repr

/-- Embedding of `Worker._handle_url` (worker.py lines 425-430): the
redirect target `data["url"]` is resolved by one further
`ydl.extract_info` call (the second component counts resolver calls).  If
the resolved record's `_type` is truthy, `_handle_playlist` is called on
it; because there is no `else`, when that call returns normally (see the
section comment) `__show_one` is then also called on the same playlist
record.  The first component lists the flow calls actually made, in
order. -/
def handle_url (resolve : String → Extracted)
    (playlistReturns : Extracted → Bool) (data : Extracted) :
    Except PyErr (List FlowCall × Nat) :=
  match data.url with
  | none => .error .keyError
  | some u =>
    let target := resolve u
    if pyTruthyStr target.dtype then
      if playlistReturns target then
        .ok ([FlowCall.playlistFlow target, FlowCall.showOne target], 1)
      else .ok ([FlowCall.playlistFlow target], 1)
    else .ok ([FlowCall.showOne target], 1)

/-- Embedding of `Worker._handle_extraction` (worker.py lines 374-383):
the link is resolved once; a record with `_type = "playlist"` goes to the
playlist flow (and `_handle_extraction` makes no further call when it
returns), one with `_type = "url"` goes through `_handle_url` (one more
resolver call), any other `_type` value falls through both branches of
the inner conditional doing nothing, and a record with no `_type` key
goes to `__show_one`. -/
def handle_extraction (resolve : String → Extracted)
    (playlistReturns : Extracted → Bool) (link : String) :
    Except PyErr (List FlowCall × Nat) :=
  let data := resolve link
  match data.dtype with
  | some t =>
    if t = "playlist" then .ok ([FlowCall.playlistFlow data], 1)
    else if t = "url" then
      match handle_url resolve playlistReturns data with
      | .ok (fs, n) => .ok (fs, n + 1)
      | .error e => .error e
    else .ok ([], 1)
  | none => .ok ([FlowCall.showOne data], 1)

/-- A playlist record, as a redirect target. -/
def playlistTarget : Extracted := { dtype := some "playlist", url := none }

/-- C6 (counterexample): the two outcomes are not mutually exclusive.  At
a redirect whose target is a playlist, when the `_handle_playlist` call
returns normally (a stale callback payload falling through `__show_one`'s
branch chain), `_handle_url`'s missing `else` makes it call `__show_one`
on the playlist record as well: the emitted call list contains both the
playlist flow and the single-item view. -/
theorem c6_counterexample_both_flows :
    handle_url (fun _ => playlistTarget) (fun _ => true)
        { dtype := some "url", url := some "T" } =
      .ok ([FlowCall.playlistFlow playlistTarget,
            FlowCall.showOne playlistTarget], 1) ∧
    FlowCall.playlistFlow playlistTarget ∈
      [FlowCall.playlistFlow playlistTarget,
       FlowCall.showOne playlistTarget] ∧
    FlowCall.showOne playlistTarget ∈
      [FlowCall.playlistFlow playlistTarget,
       FlowCall.showOne playlistTarget] := by
  exact ⟨rfl, by simp, by simp⟩

/-- C6 (amended): the redirect target is resolved exactly once
(`handle_url` always reports one resolver call, and the full pipeline on a
redirect exactly two, so recursion is bounded to one redirect hop, with no
re-entry into `_handle_url` or `_handle_extraction`); a playlist target
enters the playlist (ItemList) flow first, and it is the sole flow exactly
when that call does not return normally, while a normal return is
followed by `__show_one` on the same playlist record; a plain single-item
target (no `_type` key) enters only the ItemDetail flow with that final
item. -/
theorem c6_redirect_one_hop_not_exclusive (resolve : String → Extracted)
    (playlistReturns : Extracted → Bool) (data : Extracted) (u : String)
    (hu : data.url = some u) :
    ((resolve u).dtype = some "playlist" →
      ∃ rest, handle_url resolve playlistReturns data =
        .ok (FlowCall.playlistFlow (resolve u) :: rest, 1)) ∧
    ((resolve u).dtype = some "playlist" →
      playlistReturns (resolve u) = false →
      handle_url resolve playlistReturns data =
        .ok ([FlowCall.playlistFlow (resolve u)], 1)) ∧
    ((resolve u).dtype = some "playlist" →
      playlistReturns (resolve u) = true →
      handle_url resolve playlistReturns data =
        .ok ([FlowCall.playlistFlow (resolve u),
              FlowCall.showOne (resolve u)], 1)) ∧
    ((resolve u).dtype = none →
      handle_url resolve playlistReturns data =
        .ok ([FlowCall.showOne (resolve u)], 1)) ∧
    (∀ fs n, handle_url resolve playlistReturns data = .ok (fs, n) →
      n = 1) ∧
    (∀ link : String, (resolve link).dtype = some "url" →
      resolve link = data →
      ∀ fs n, handle_url resolve playlistReturns data = .ok (fs, n) →
        handle_extraction resolve playlistReturns link = .ok (fs, n + 1)) := by
  refine ⟨?_, ?_, ?_, ?_, ?_, ?_⟩
  · intro h
    have ht : pyTruthyStr (resolve u).dtype = true := by rw [h]; decide
    by_cases hp : playlistReturns (resolve u) = true
    · exact ⟨[FlowCall.showOne (resolve u)], by simp [handle_url, hu, ht, hp]⟩
    · exact ⟨[], by simp [handle_url, hu, ht, hp]⟩
  · intro h hp
    have ht : pyTruthyStr (resolve u).dtype = true := by rw [h]; decide
    simp [handle_url, hu, ht, hp]
  · intro h hp
    have ht : pyTruthyStr (resolve u).dtype = true := by rw [h]; decide
    simp [handle_url, hu, ht, hp]
  · intro h
    have ht : pyTruthyStr (resolve u).dtype = false := by rw [h]; rfl
    simp [handle_url, hu, ht]
  · intro fs n h
    simp only [handle_url, hu] at h
    split at h
    · split at h <;> simp_all
    · simp_all
  · intro link hlt hld fs n h
    have hdt : data.dtype = some "url" := by rw [← hld]; exact hlt
    simp [handle_extraction, hld, hdt, h]

/-- The concrete resolver for the C6 witness: the link `"L"` resolves to a
redirect whose target `"T"` resolves to a plain single item. -/
def resolverW : String → Extracted :=
  fun s => if s = "T" then { dtype := none, url := none }
    else { dtype := some "url", url := some "T" }

/-- Witness for C6 (amended) at the concrete resolver `resolverW`. -/
theorem c6_redirect_one_hop_not_exclusive_witness :
    handle_url resolverW (fun _ => true)
        { dtype := some "url", url := some "T" } =
      .ok ([FlowCall.showOne { dtype := none, url := none }], 1) ∧
    handle_extraction resolverW (fun _ => true) "L" =
      .ok ([FlowCall.showOne { dtype := none, url := none }], 2) := by
  constructor
  · exact (c6_redirect_one_hop_not_exclusive resolverW (fun _ => true)
      { dtype := some "url", url := some "T" } "T" rfl).2.2.2.1 rfl
  · exact (c6_redirect_one_hop_not_exclusive resolverW (fun _ => true)
      { dtype := some "url", url := some "T" } "T" rfl).2.2.2.2.2 "L" rfl rfl
      [FlowCall.showOne { dtype := none, url := none }] 1
      ((c6_redirect_one_hop_not_exclusive resolverW (fun _ => true)
        { dtype := some "url", url := some "T" } "T" rfl).2.2.2.1 rfl)

/-! ## Worker replacement on a start command (core.py lines 132-161,
worker.py `Worker.stop`)

The dispatcher runs on a single thread.  `Worker.stop(reason)` (worker.py
lines 144-149) enqueues a `StopSignal` and then `join()`s, returning only
after the worker thread has terminated; in the dispatcher's sequential
execution this means the old worker's thread status is already terminated
when the next statement runs.  We model the system as the registry map
(the `chat_workers` dict), each allocated worker's thread status, and the
chat each worker was created for, and observe the state after every
dispatcher step of the start-command branch. -/

/-- Thread status of a worker. -/
inductive WStatus where
  | running
  | stopped
deriving DecidableEq, Repr

/-- The dispatcher-visible system state: `registry` is the `chat_workers`
dict mapping chat ids to worker ids, `status` the thread status of every
allocated worker id, `owner` the chat a worker was created for, `used`
which worker ids have been allocated. -/
structure Sys where
  registry : Nat → Option Nat
  status : Nat → WStatus
  owner : Nat → Nat
  used : Nat → Bool

/-- Effect of `old_worker.stop("request")` as the dispatcher observes it:
after the enclosed `join()` returns, the old worker's thread has
terminated. -/
def stopWorker (s : Sys) (wid : Nat) : Sys :=
  { s with status := fun w => if w = wid then WStatus.stopped else s.status w }

/-- Effect of `Worker(...)` plus `new_worker.start()`: a fresh worker id is
allocated, owned by `chat`, with a running thread. -/
def spawnWorker (s : Sys) (wid chat : Nat) : Sys :=
  { s with
    status := fun w => if w = wid then WStatus.running else s.status w
    owner := fun w => if w = wid then chat else s.owner w
    used := fun w => if w = wid then true else s.used w }

/-- Effect of `chat_workers[update.message.chat.id] = new_worker`. -/
def registerWorker (s : Sys) (chat wid : Nat) : Sys :=
  { s with registry := fun c => if c = chat then some wid else s.registry c }

/-- The sequence of states observed while the dispatcher handles a start
command (core.py lines 132-161): the state on entry; after the old worker
(if any) has been stopped synchronously; after the new worker has been
created and started; and after it has been registered. -/
def handle_start_trace (s : Sys) (chat fresh : Nat) : List Sys :=
  let s1 := match s.registry chat with
    | some old => stopWorker s old
    | none => s
  let s2 := spawnWorker s1 fresh chat
  let s3 := registerWorker s2 chat fresh
  [s, s1, s2, s3]

/-- At most one live worker exists for any chat: any two allocated workers
owned by the same chat whose threads are both running coincide. -/
def AtMostOneLive (s : Sys) : Prop :=
  ∀ w1 w2, s.used w1 = true → s.used w2 = true →
    s.owner w1 = s.owner w2 →
    s.status w1 = WStatus.running → s.status w2 = WStatus.running →
    w1 = w2

/-- The dispatcher's invariant between iterations: every allocated worker
with a running thread is the one registered for its chat, and the registry
holds only allocated workers registered under their own chat. -/
def SysInv (s : Sys) : Prop :=
  (∀ w, s.used w = true → s.status w = WStatus.running →
    s.registry (s.owner w) = some w) ∧
  (∀ c w, s.registry c = some w → s.owner w = c ∧ s.used w = true)

theorem sysInv_atMostOneLive {s : Sys} (h : SysInv s) : AtMostOneLive s := by
  intro w1 w2 hu1 hu2 hown hr1 hr2
  have h1 := h.1 w1 hu1 hr1
  have h2 := h.1 w2 hu2 hr2
  rw [hown] at h1
  rw [h1] at h2
  exact Option.some_injective _ h2

theorem stopWorker_no_new_live {s : Sys} {old w : Nat}
    (h : (stopWorker s old).status w = WStatus.running) :
    s.status w = WStatus.running ∧ w ≠ old := by
  by_cases hw : w = old <;> simp [stopWorker, hw] at h ⊢
  exact h

/-- After the synchronous stop of the registered worker, no allocated
worker owned by `chat` is running any more. -/
theorem no_live_for_chat_after_stop {s : Sys} {chat old : Nat}
    (hinv : SysInv s) (hreg : s.registry chat = some old) :
    ∀ w, (stopWorker s old).used w = true →
      (stopWorker s old).owner w = chat →
      (stopWorker s old).status w ≠ WStatus.running := by
  intro w hu hown hr
  rcases stopWorker_no_new_live hr with ⟨hrun, hne⟩
  have hu' : s.used w = true := hu
  have hown' : s.owner w = chat := hown
  have := hinv.1 w hu' hrun
  rw [hown'] at this
  rw [hreg] at this
  exact hne (Option.some_injective _ this.symm)

/-- C1: given the dispatcher invariant and a not-yet-allocated fresh
worker id, every state observed while the start command is handled —
before, after the synchronous stop of the old worker, after the new worker
is created and started, and after it is registered — has at most one live
worker per chat; the old worker is already terminated from the stop call
onwards (in particular before the new worker exists); afterwards the
registry maps the chat to the new, running worker; and the dispatcher
invariant holds again at the end. -/
theorem c1_start_replaces_worker_atomically (s : Sys) (chat fresh : Nat)
    (hinv : SysInv s) (hfresh : s.used fresh = false) :
    (∀ s' ∈ handle_start_trace s chat fresh, AtMostOneLive s') ∧
    (∀ old, s.registry chat = some old →
      ∀ s' ∈ (handle_start_trace s chat fresh).drop 1,
        s'.status old = WStatus.stopped) ∧
    (∀ sEnd, (handle_start_trace s chat fresh).getLast? = some sEnd →
      sEnd.registry chat = some fresh ∧
      sEnd.status fresh = WStatus.running ∧ SysInv sEnd) := by
  have hfresh' : ∀ c, s.registry c ≠ some fresh := by
    intro c hc
    have := (hinv.2 c fresh hc).2
    rw [hfresh] at this
    exact Bool.noConfusion this
  -- name the intermediate states
  set s1 := (match s.registry chat with
    | some old => stopWorker s old
    | none => s) with hs1
  set s2 := spawnWorker s1 fresh chat with hs2
  set s3 := registerWorker s2 chat fresh with hs3
  have htrace : handle_start_trace s chat fresh = [s, s1, s2, s3] := rfl
  -- no allocated worker owned by `chat` is running in s1
  have hs1chat : ∀ w, s1.used w = true → s1.owner w = chat →
      s1.status w ≠ WStatus.running := by
    rcases hreg : s.registry chat with _ | old
    · intro w hu hown hr
      rw [hs1, hreg] at hu hown hr
      have := hinv.1 w hu hr
      rw [hown, hreg] at this
      exact Option.noConfusion this
    · intro w hu hown
      rw [hs1, hreg] at hu hown ⊢
      exact no_live_for_chat_after_stop hinv hreg w hu hown
  -- s1 agrees with s on everything except the stopped worker's status
  have hs1used : s1.used = s.used := by
    rcases hreg : s.registry chat with _ | old <;> rw [hs1, hreg] <;> rfl
  have hs1owner : s1.owner = s.owner := by
    rcases hreg : s.registry chat with _ | old <;> rw [hs1, hreg] <;> rfl
  have hs1reg : s1.registry = s.registry := by
    rcases hreg : s.registry chat with _ | old <;> rw [hs1, hreg] <;> rfl
  have hs1run : ∀ w, s1.status w = WStatus.running →
      s.status w = WStatus.running := by
    intro w hw
    rcases hreg : s.registry chat with _ | old
    · rw [hs1, hreg] at hw; exact hw
    · rw [hs1, hreg] at hw; exact (stopWorker_no_new_live hw).1
  have hinv1 : SysInv s1 := by
    constructor
    · intro w hu hr
      rw [hs1used] at hu
      rw [hs1owner, hs1reg]
      exact hinv.1 w hu (hs1run w hr)
    · intro c w hc
      rw [hs1reg] at hc
      rw [hs1owner, hs1used]
      exact hinv.2 c w hc
  have haol1 : AtMostOneLive s1 := by
    intro w1 w2 hu1 hu2 hown hr1 hr2
    rw [hs1used] at hu1 hu2
    rw [hs1owner] at hown
    exact sysInv_atMostOneLive hinv w1 w2 hu1 hu2 hown (hs1run w1 hr1)
      (hs1run w2 hr2)
  -- live workers of s2 are fresh or live workers of s1
  have hs2live : ∀ w, s2.used w = true → s2.status w = WStatus.running →
      w = fresh ∨ (s1.used w = true ∧ s1.status w = WStatus.running) := by
    intro w hu hr
    by_cases hw : w = fresh
    · exact Or.inl hw
    · rw [hs2] at hu hr
      simp only [spawnWorker, hw, if_false] at hu hr
      exact Or.inr ⟨hu, hr⟩
  have hs2owner : ∀ w, w ≠ fresh → s2.owner w = s1.owner w := by
    intro w hw
    rw [hs2]
    simp [spawnWorker, hw]
  have haol2 : AtMostOneLive s2 := by
    intro w1 w2 hu1 hu2 hown hr1 hr2
    rcases hs2live w1 hu1 hr1 with h1 | h1 <;>
      rcases hs2live w2 hu2 hr2 with h2 | h2
    · rw [h1, h2]
    · -- w1 = fresh, w2 a live worker of s1: w2 would be a live worker of
      -- chat in s1, which hs1chat rules out
      exfalso
      have hw2ne : w2 ≠ fresh := by
        intro he
        rw [he, hs1used] at h2
        rw [hfresh] at h2
        exact Bool.noConfusion h2.1
      have hown2 : s1.owner w2 = chat := by
        have := hs2owner w2 hw2ne
        rw [← this, ← hown, h1, hs2]
        simp [spawnWorker]
      exact hs1chat w2 h2.1 hown2 h2.2
    · exfalso
      have hw1ne : w1 ≠ fresh := by
        intro he
        rw [he, hs1used] at h1
        rw [hfresh] at h1
        exact Bool.noConfusion h1.1
      have hown1 : s1.owner w1 = chat := by
        have := hs2owner w1 hw1ne
        rw [← this, hown, h2, hs2]
        simp [spawnWorker]
      exact hs1chat w1 h1.1 hown1 h1.2
    · have hw1ne : w1 ≠ fresh := by
        intro he
        rw [he, hs1used] at h1
        rw [hfresh] at h1
        exact Bool.noConfusion h1.1
      have hw2ne : w2 ≠ fresh := by
        intro he
        rw [he, hs1used] at h2
        rw [hfresh] at h2
        exact Bool.noConfusion h2.1
      have hown' : s1.owner w1 = s1.owner w2 := by
        rw [← hs2owner w1 hw1ne, ← hs2owner w2 hw2ne]
        exact hown
      rw [hs1used] at h1 h2
      exact sysInv_atMostOneLive hinv w1 w2 h1.1 h2.1
        (by rw [hs1owner] at hown'; exact hown')
        (hs1run w1 h1.2) (hs1run w2 h2.2)
  -- registration does not change workers, so AtMostOneLive transfers
  have haol3 : AtMostOneLive s3 := by
    intro w1 w2 hu1 hu2 hown hr1 hr2
    exact haol2 w1 w2 hu1 hu2 hown hr1 hr2
  have hinv3 : SysInv s3 := by
    constructor
    · intro w hu hr
      rcases hs2live w hu hr with hw | hw
      · subst hw
        have : s3.owner w = chat := by
          rw [hs3, hs2]
          simp [registerWorker, spawnWorker]
        rw [this, hs3]
        simp [registerWorker]
      · have hwne : w ≠ fresh := by
          intro he
          rw [he, hs1used] at hw
          rw [hfresh] at hw
          exact Bool.noConfusion hw.1
        have hownw : s3.owner w = s1.owner w := by
          rw [hs3]
          simpa [registerWorker] using hs2owner w hwne
        have hchat : s1.owner w ≠ chat := fun hc =>
          hs1chat w hw.1 hc hw.2
        rw [hownw, hs3]
        simp only [registerWorker]
        rw [if_neg hchat, hs2]
        simp only [spawnWorker]
        rw [hs1reg]
        have := hinv.1 w (by rw [← hs1used]; exact hw.1) (hs1run w hw.2)
        rw [hs1owner]
        exact this
    · intro c w hc
      rw [hs3] at hc
      simp only [registerWorker] at hc
      by_cases hcc : c = chat
      · rw [if_pos hcc] at hc
        have hw : w = fresh := (Option.some_injective _ hc.symm)
        subst hw
        subst hcc
        constructor
        · rw [hs3, hs2]; simp [registerWorker, spawnWorker]
        · rw [hs3, hs2]; simp [registerWorker, spawnWorker]
      · rw [if_neg hcc] at hc
        rw [hs2] at hc
        simp only [spawnWorker] at hc
        rw [hs1reg] at hc
        rcases hinv.2 c w hc with ⟨hown, hused⟩
        have hwne : w ≠ fresh := by
          intro he
          rw [he, hfresh] at hused
          exact Bool.noConfusion hused
        constructor
        · rw [hs3]
          simp only [registerWorker]
          rw [hs2]
          simp only [spawnWorker]
          rw [if_neg hwne, hs1owner]
          exact hown
        · rw [hs3]
          simp only [registerWorker]
          rw [hs2]
          simp only [spawnWorker]
          rw [if_neg hwne, hs1used]
          exact hused
  refine ⟨?_, ?_, ?_⟩
  · intro s' hs'
    rw [htrace] at hs'
    simp only [List.mem_cons, List.not_mem_nil, or_false] at hs'
    rcases hs' with h | h | h | h
    · rw [h]; exact sysInv_atMostOneLive hinv
    · rw [h]; exact haol1
    · rw [h]; exact haol2
    · rw [h]; exact haol3
  · intro old hold s' hs'
    have holdne : old ≠ fresh := by
      intro he
      rcases hinv.2 chat old hold with ⟨_, hused⟩
      rw [he, hfresh] at hused
      exact Bool.noConfusion hused
    have h1 : s1.status old = WStatus.stopped := by
      rw [hs1, hold]
      simp [stopWorker]
    have h2 : s2.status old = WStatus.stopped := by
      rw [hs2]
      simp only [spawnWorker]
      rw [if_neg holdne]
      exact h1
    have h3 : s3.status old = WStatus.stopped := h2
    rw [htrace] at hs'
    simp only [List.drop, List.mem_cons, List.not_mem_nil, or_false] at hs'
    rcases hs' with h | h | h
    · rw [h]; exact h1
    · rw [h]; exact h2
    · rw [h]; exact h3
  · intro sEnd hEnd
    rw [htrace] at hEnd
    have : sEnd = s3 := by
      simp only [List.getLast?] at hEnd
      simpa using hEnd.symm
    subst this
    refine ⟨?_, ?_, hinv3⟩
    · rw [hs3]; simp [registerWorker]
    · rw [hs3, hs2]; simp [registerWorker, spawnWorker]

/-- A concrete pre-state for the C1 witness: chat 1 has worker 10
registered and running; worker id 11 is unallocated. -/
def sysWitness : Sys :=
  { registry := fun c => if c = 1 then some 10 else none
    status := fun w => if w = 10 then WStatus.running else WStatus.stopped
    owner := fun w => if w = 10 then 1 else 0
    used := fun w => if w = 10 then true else false }

theorem sysWitness_inv : SysInv sysWitness := by
  constructor
  · intro w hu hr
    by_cases hw : w = 10
    · subst hw
      simp [sysWitness]
    · simp [sysWitness, hw] at hu
  · intro c w hc
    by_cases hcc : c = 1
    · subst hcc
      simp only [sysWitness, if_pos rfl] at hc
      have : w = 10 := by
        simpa using hc.symm
      subst this
      simp [sysWitness]
    · simp [sysWitness, hcc] at hc

/-- Witness for C1 at the concrete pre-state: every observed state keeps
at most one live worker per chat, and the old worker 10 is stopped from
the stop call onwards. -/
theorem c1_start_replaces_worker_atomically_witness :
    (∀ s' ∈ handle_start_trace sysWitness 1 11, AtMostOneLive s') ∧
    (∀ s' ∈ (handle_start_trace sysWitness 1 11).drop 1,
      s'.status 10 = WStatus.stopped) :=
  ⟨(c1_start_replaces_worker_atomically sysWitness 1 11 sysWitness_inv
      rfl).1,
   (c1_start_replaces_worker_atomically sysWitness 1 11 sysWitness_inv
      rfl).2.1 10 rfl⟩

end TMB
